import Mathlib

/-!
Shallow embedding of `src/main.py` (a curses network monitor: entity registry,
glyph animation, renderer, persistence).

Modelling conventions:
* Python floats are modelled as exact rationals (`ℚ`); cumulative byte counters
  as integers (`ℤ`).
* Randomness (`random.random`, `random.choice`, `random.randint`) and clock
  reads (`time.time`, `datetime.now`) are passed in explicitly as parameters,
  one per draw site, in the order the source draws them.
* The counter-source text (`/proc/net/dev`) is modelled post-tokenisation: a
  line either has no name/colon part (`junk`, skipped before the found-set is
  touched) or is a row with a stripped name and the whitespace-split integer
  fields after the colon.  A total read failure is the `none` input.
* Python dicts preserve insertion order, so the entity registry is an
  association list; `dict.pop` removes the entry, iteration is list order.
-/

namespace Myst

/-- Python `int()` truncation toward zero on a rational. -/
def pyTrunc (q : ℚ) : ℤ := if 0 ≤ q then ⌊q⌋ else ⌈q⌉

/-- Last `n` elements of a list, Python `l[-n:]`. -/
def takeLast {α : Type} (l : List α) (n : ℕ) : List α := l.drop (l.length - n)

/-- Python `s[:m]` on a string, where `m` may be negative. -/
def pyTakeStr (s : String) (m : ℤ) : String :=
  if 0 ≤ m then ⟨s.data.take m.toNat⟩ else ⟨s.data.take (s.length - m.natAbs)⟩

/-- Python `c * n` string repetition (empty for a non-positive count). -/
def strRepeat (c : String) (n : ℤ) : String := String.join (List.replicate n.toNat c)

/-- The five glyph kinds of `GlyphType`. -/
inductive GlyphType
  | flow
  | pulse
  | whisper
  | shadow
  | echo
deriving DecidableEq

/-- The fixed display alphabet of each glyph kind (`update_glyphs` re-skin). -/
def glyphAlphabet : GlyphType → List String
  | .flow => ["↗", "↘", "↖", "↙", "↕", "↔"]
  | .pulse => ["●", "○", "◎", "◉", "⊙"]
  | .whisper => ["…", "~", "⋮", "⋯"]
  | .shadow => ["░", "▒", "▓", "▚", "▞"]
  | .echo => ["⦿", "⟳", "⟲", "↻", "↺"]

/-- `random.choice` from a fixed alphabet, driven by an injected index. -/
def pickFrom (l : List String) (i : ℕ) : String := l.getD (i % l.length) " "

/-- The `Glyph` dataclass. -/
structure Glyph where
  type : GlyphType
  intensity : ℚ
  position : ℤ × ℤ
  age : ℕ := 0
  char : String := " "
  colorPair : ℕ := 0
deriving DecidableEq

/-- The `NetworkEntity` mutable state (cosmetic fields included). -/
structure NetworkEntity where
  name : String
  interface : String
  rx_bytes : ℤ
  tx_bytes : ℤ
  rx_rate : ℚ
  tx_rate : ℚ
  essence : ℚ
  aura : String
  glyphs : List Glyph
  last_seen : ℚ
  whispers : List String
deriving DecidableEq

/-- Randomness consumed by one `update_glyphs` call: the re-skin choice for the
glyph at each index, then the two Bernoulli draws with their position/colour
draws. -/
structure GlyphRand where
  charIdx : ℕ → ℕ
  flowRand : ℚ
  flowPos : ℤ × ℤ
  flowColor : ℕ
  whisperRand : ℚ
  whisperPos : ℤ × ℤ
  whisperColor : ℕ

/-- Age/decay/re-skin of a single glyph inside the `update_glyphs` loop. -/
def stepGlyph (pick : ℕ) (g : Glyph) : Glyph :=
  { g with age := g.age + 1, intensity := g.intensity * 0.95,
           char := pickFrom (glyphAlphabet g.type) pick }

/-- The survivor pass of `update_glyphs`: each glyph is aged, decayed and
re-skinned, and is kept exactly when its decayed intensity exceeds `0.1`. -/
def decayGlyphs (charIdx : ℕ → ℕ) : ℕ → List Glyph → List Glyph
  | _, [] => []
  | i, g :: gs =>
    if 0.1 < (stepGlyph (charIdx i) g).intensity then
      stepGlyph (charIdx i) g :: decayGlyphs charIdx (i + 1) gs
    else decayGlyphs charIdx (i + 1) gs

/-- `flow_intensity = min(rx_rate + tx_rate, 1000) / 1000`. -/
def flowIntensity (e : NetworkEntity) : ℚ := min (e.rx_rate + e.tx_rate) 1000 / 1000

/-- The Flow spawn of `update_glyphs` (fires when the draw is below
`flow_intensity * 0.3`). -/
def flowSpawn (e : NetworkEntity) (r : GlyphRand) : List Glyph :=
  if r.flowRand < flowIntensity e * 0.3 then
    [{ type := .flow, intensity := flowIntensity e, position := r.flowPos,
       colorPair := r.flowColor }]
  else []

/-- The Whisper spawn of `update_glyphs` (fires when the draw is below
`essence * 0.2`). -/
def whisperSpawn (e : NetworkEntity) (r : GlyphRand) : List Glyph :=
  if r.whisperRand < e.essence * 0.2 then
    [{ type := .whisper, intensity := e.essence, position := r.whisperPos,
       colorPair := r.whisperColor }]
  else []

/-- `NetworkEntity.update_glyphs`. -/
def updateGlyphs (e : NetworkEntity) (r : GlyphRand) : NetworkEntity :=
  { e with glyphs := decayGlyphs r.charIdx 0 e.glyphs ++ flowSpawn e r ++ whisperSpawn e r }

/-- `NetworkEntity.add_whisper`: append a timestamped message to the entity's
ring and pop the oldest entry when the ring exceeds five entries. -/
def addEntityWhisper (ts : String) (msg : String) (e : NetworkEntity) : NetworkEntity :=
  let l := e.whispers ++ ["[" ++ ts ++ "] " ++ msg]
  { e with whispers := if 5 < l.length then l.tail else l }

/-- Per-creation randomness of `NetworkEntity.__init__` (spirit name, essence
and aura are random; `last_seen` is first set to the construction-time clock). -/
structure FreshParams where
  spiritName : String
  essence : ℚ
  aura : String
  initLastSeen : ℚ

/-- `NetworkEntity.__init__` on a given interface name. -/
def freshEntity (iface : String) (p : FreshParams) : NetworkEntity :=
  { name := p.spiritName, interface := iface, rx_bytes := 0, tx_bytes := 0,
    rx_rate := 0, tx_rate := 0, essence := p.essence, aura := p.aura,
    glyphs := [], last_seen := p.initLastSeen, whispers := [] }

/-- One tokenised `/proc/net/dev` data line: `junk` is a blank line or a line
without a colon (skipped before the found-set is touched); `row` carries the
stripped interface name and the integer fields after the colon. -/
inductive NetDevLine
  | junk
  | row (name : String) (data : List ℤ)
deriving DecidableEq

/-- Environment of a single `scan_spirits` call: the scan clock, the mystic's
`last_update`, the loopback toggle, and the injected randomness / timestamps. -/
structure ScanEnv where
  now : ℚ
  lastUpdate : ℚ
  showLoopback : Bool
  fresh : String → FreshParams
  rand : String → GlyphRand
  entityTs : String
  collectorTs : String
  failText : String

/-- First entity stored under a key in the registry (Python dict lookup). -/
def lookupEnt (iface : String) : List (String × NetworkEntity) → Option NetworkEntity
  | [] => none
  | (k, e) :: rest => if k = iface then some e else lookupEnt iface rest

/-- In-place update of the entry under a key (Python dict item assignment). -/
def updateEnt (iface : String) (f : NetworkEntity → NetworkEntity) :
    List (String × NetworkEntity) → List (String × NetworkEntity)
  | [] => []
  | (k, e) :: rest =>
    if k = iface then (k, f e) :: rest else (k, e) :: updateEnt iface f rest

/-- The rate-threshold status message cascade of `scan_spirits`. -/
def rateWhisper (ts : String) (e : NetworkEntity) : NetworkEntity :=
  if 1000000 < e.rx_rate then addEntityWhisper ts "Great flow from beyond" e
  else if e.rx_rate < 1000 ∧ e.tx_rate < 1000 then addEntityWhisper ts "Resting in silence" e
  else if e.tx_rate * 2 < e.rx_rate then addEntityWhisper ts "Listening more than speaking" e
  else if e.rx_rate * 2 < e.tx_rate then addEntityWhisper ts "Whispering to the void" e
  else e

/-- The per-row entity refresh of `scan_spirits`: stamp `last_seen`, derive the
rates from `now - last_update` when that is positive, store the raw counters,
append the threshold message and run `update_glyphs`. -/
def sampleUpdate (env : ScanEnv) (iface : String) (rx tx : ℤ) (e : NetworkEntity) :
    NetworkEntity :=
  let e1 := { e with last_seen := env.now }
  let dt := env.now - env.lastUpdate
  let e2 :=
    if 0 < dt then
      { e1 with rx_rate := ((rx : ℚ) - (e1.rx_bytes : ℚ)) / dt,
                tx_rate := ((tx : ℚ) - (e1.tx_bytes : ℚ)) / dt }
    else e1
  let e3 := { e2 with rx_bytes := rx, tx_bytes := tx }
  updateGlyphs (rateWhisper env.entityTs e3) (env.rand iface)

/-- `WhisperCollector.add_whisper` message format. -/
def collectorMsg (ts level source msg : String) : String :=
  "[" ++ ts ++ "] [" ++ level ++ "] " ++ source ++ ": " ++ msg

/-- A single-quote character as a string. -/
def sq : String := String.singleton '\''

/-- The creation event pushed to the global collector. -/
def appearMsg (env : ScanEnv) (spiritName : String) : String :=
  collectorMsg env.collectorTs "SPIRIT" "Veil"
    ("Spirit " ++ sq ++ spiritName ++ sq ++ " has appeared")

/-- The removal event pushed to the global collector. -/
def fadedMsg (env : ScanEnv) (spiritName : String) : String :=
  collectorMsg env.collectorTs "SPIRIT" "Veil"
    ("Spirit " ++ sq ++ spiritName ++ sq ++ " has faded")

/-- The recoverable warning pushed when the counter source cannot be read. -/
def scanFailMsg (env : ScanEnv) : String :=
  collectorMsg env.collectorTs "ERROR" "Scanner" ("Failed to scan: " ++ env.failText)

/-- Accumulator of the per-line loop of `scan_spirits`. -/
structure ScanAcc where
  entities : List (String × NetworkEntity)
  found : List String
  events : List String

/-- One iteration of the `for line in lines` loop of `scan_spirits`. -/
def processLine (env : ScanEnv) (acc : ScanAcc) (l : NetDevLine) : ScanAcc :=
  match l with
  | .junk => acc
  | .row name data =>
    if name = "" ∨ (name = "lo" ∧ env.showLoopback = false) then acc
    else
      let found := acc.found ++ [name]
      if data.length < 16 then { acc with found := found }
      else
        let rx := data.getD 0 0
        let tx := data.getD 8 0
        let (ents, evs) :=
          match lookupEnt name acc.entities with
          | some _ => (acc.entities, acc.events)
          | none =>
            (acc.entities ++ [(name, freshEntity name (env.fresh name))],
             acc.events ++ [appearMsg env (env.fresh name).spiritName])
        { entities := updateEnt name (sampleUpdate env name rx tx) ents,
          found := found, events := evs }

/-- Append to the bounded (`maxlen=100`) global whisper deque. -/
def pushWhisper (l : List String) (m : String) : List String :=
  let l' := l ++ [m]
  if 100 < l'.length then l'.tail else l'

/-- Sequential pushes to the global whisper deque. -/
def pushMany (l : List String) (ms : List String) : List String := ms.foldl pushWhisper l

/-- The mystic's scan-relevant mutable state: the registry and the global
whisper collector. -/
structure MysticState where
  entities : List (String × NetworkEntity)
  whispers : List String
deriving DecidableEq

/-- The registry entries whose key was not found this scan (removed in list
order, each with a removal event). -/
def expiredEnts (found : List String) (ents : List (String × NetworkEntity)) :
    List (String × NetworkEntity) :=
  ents.filter (fun kv => decide (kv.1 ∉ found))

/-- The registry entries whose key was found this scan (kept in list order). -/
def survivorEnts (found : List String) (ents : List (String × NetworkEntity)) :
    List (String × NetworkEntity) :=
  ents.filter (fun kv => decide (kv.1 ∈ found))

/-- The line loop of `scan_spirits` over the whole read. -/
def scanFold (env : ScanEnv) (st : MysticState) (lines : List NetDevLine) : ScanAcc :=
  lines.foldl (processLine env) { entities := st.entities, found := [], events := [] }

/-- All global-collector events emitted by one successful scan, in emission
order: creation events during the line loop, then removal events. -/
def scanEvents (env : ScanEnv) (st : MysticState) (lines : List NetDevLine) : List String :=
  let a := scanFold env st lines
  a.events ++ (expiredEnts a.found a.entities).map (fun kv => fadedMsg env kv.2.name)

/-- `NetworkMystic.scan_spirits`: `none` models a total read failure of the
counter source (nothing before the read has mutated any state, the handler
logs a warning); `some lines` is a successful read. -/
def scanSpirits (env : ScanEnv) (input : Option (List NetDevLine)) (st : MysticState) :
    MysticState :=
  match input with
  | none => { st with whispers := pushWhisper st.whispers (scanFailMsg env) }
  | some lines =>
    let a := scanFold env st lines
    { entities := survivorEnts a.found a.entities,
      whispers := pushMany st.whispers (scanEvents env st lines) }

/-- The name filter applied to a line before the found-set is extended:
`some name` exactly when the loop reaches `found_interfaces.add`. -/
def lineObserved (showLb : Bool) : NetDevLine → Option String
  | .junk => none
  | .row name _ =>
    if name = "" ∨ (name = "lo" ∧ showLb = false) then none else some name

/-- The interface names observed by a scan (the contents of
`found_interfaces`, with multiplicity). -/
def observedIfaces (showLb : Bool) (lines : List NetDevLine) : List String :=
  lines.filterMap (lineObserved showLb)

/-- The data fields a line contributes for a given interface: `some data`
exactly when the line is a row for that interface that passes the name filter. -/
def lineRowFor (showLb : Bool) (iface : String) : NetDevLine → Option (List ℤ)
  | .junk => none
  | .row name data =>
    if lineObserved showLb (.row name data) = some iface then some data else none

/-- The data fields of every row of a given interface that passes the name
filter, in line order. -/
def ifaceRows (showLb : Bool) (iface : String) (lines : List NetDevLine) : List (List ℤ) :=
  lines.filterMap (lineRowFor showLb iface)

/-- The effect of one row of a given interface on that interface's registry
slot: a malformed row (fewer than 16 fields) changes nothing; a well-formed row
refreshes the tracked entity, creating it first when absent. -/
def applyRow (env : ScanEnv) (iface : String) (oe : Option NetworkEntity) (data : List ℤ) :
    Option NetworkEntity :=
  if data.length < 16 then oe
  else some (sampleUpdate env iface (data.getD 0 0) (data.getD 8 0)
    (oe.getD (freshEntity iface (env.fresh iface))))

/-- A scan observes a well-formed row for the interface. -/
def wellObserved (showLb : Bool) (iface : String) (lines : List NetDevLine) : Prop :=
  ∃ data ∈ ifaceRows showLb iface lines, ¬ data.length < 16

/-- State carried across iterations of `run_ritual`. -/
structure RitualState where
  st : MysticState
  lastUpdate : ℚ

/-- The sampling-cadence branch of one `run_ritual` iteration: when the time
since `last_update` has reached the update interval, scan (the scan reads
`self.last_update`) and then reset `last_update` to the current time. -/
def ritualScanStep (interval : ℚ) (env : ScanEnv) (input : Option (List NetDevLine))
    (r : RitualState) : RitualState :=
  if interval ≤ env.now - r.lastUpdate then
    { st := scanSpirits { env with lastUpdate := r.lastUpdate } input r.st,
      lastUpdate := env.now }
  else r

/-! ### Lemmas about the glyph animation step -/

/-- Every survivor of the decay pass has post-decay intensity above `0.1` and a
positive age. -/
lemma mem_decayGlyphs (c : ℕ → ℕ) (l : List Glyph) :
    ∀ (i0 : ℕ) (g : Glyph), g ∈ decayGlyphs c i0 l → 0.1 < g.intensity ∧ 1 ≤ g.age := by
  induction l with
  | nil => intro i0 g h; simp [decayGlyphs] at h
  | cons hd tl ih =>
    intro i0 g h
    simp only [decayGlyphs] at h
    split at h
    · rcases List.mem_cons.mp h with h1 | h2
      · subst h1
        exact ⟨by assumption, by simp [stepGlyph]⟩
      · exact ih _ _ h2
    · exact ih _ _ h

/-- The decayed image of the glyph at index `i` survives the decay pass when
its post-decay intensity exceeds `0.1`. -/
lemma stepGlyph_mem_decayGlyphs (c : ℕ → ℕ) (l : List Glyph) :
    ∀ (i0 i : ℕ) (hi : i < l.length),
      0.1 < (stepGlyph (c (i0 + i)) (l.get ⟨i, hi⟩)).intensity →
      stepGlyph (c (i0 + i)) (l.get ⟨i, hi⟩) ∈ decayGlyphs c i0 l := by
  induction l with
  | nil => intro i0 i hi; simp at hi
  | cons hd tl ih =>
    intro i0 i hi h
    cases i with
    | zero =>
      simp only [Nat.add_zero, List.get] at h ⊢
      simp only [decayGlyphs, if_pos h]
      exact List.mem_cons_self _ _
    | succ n =>
      have e1 : i0 + (n + 1) = (i0 + 1) + n := by omega
      have hn : n < tl.length := by simpa using hi
      have hget : (hd :: tl).get ⟨n + 1, hi⟩ = tl.get ⟨n, hn⟩ := rfl
      rw [e1, hget] at h ⊢
      have hmem := ih (i0 + 1) n hn h
      simp only [decayGlyphs]
      split
      · exact List.mem_cons_of_mem _ hmem
      · exact hmem

/-- A spawned Flow glyph has age `0` and kind Flow. -/
lemma mem_flowSpawn {e : NetworkEntity} {r : GlyphRand} {g : Glyph}
    (h : g ∈ flowSpawn e r) : g.age = 0 ∧ g.type = GlyphType.flow := by
  unfold flowSpawn at h
  split at h <;> simp_all

/-- A spawned Whisper glyph has age `0`, kind Whisper, and intensity equal to
the entity's essence. -/
lemma mem_whisperSpawn {e : NetworkEntity} {r : GlyphRand} {g : Glyph}
    (h : g ∈ whisperSpawn e r) :
    g.age = 0 ∧ g.type = GlyphType.whisper ∧ g.intensity = e.essence := by
  unfold whisperSpawn at h
  split at h <;> simp_all

/-- The Whisper spawn fires exactly when the draw is below `essence * 0.2`. -/
lemma whisperSpawn_fires {e : NetworkEntity} {r : GlyphRand}
    (hc : r.whisperRand < e.essence * 0.2) :
    whisperSpawn e r =
      [{ type := GlyphType.whisper, intensity := e.essence, position := r.whisperPos,
         colorPair := r.whisperColor }] := by
  unfold whisperSpawn
  rw [if_pos hc]

/-- Membership in the glyph collection after `update_glyphs` splits into the
decay pass and the two spawns. -/
lemma mem_updateGlyphs {e : NetworkEntity} {r : GlyphRand} {g : Glyph} :
    g ∈ (updateGlyphs e r).glyphs ↔
      g ∈ decayGlyphs r.charIdx 0 e.glyphs ∨ g ∈ flowSpawn e r ∨ g ∈ whisperSpawn e r := by
  simp [updateGlyphs]

/-- C3: on every glyph-animation tick the glyph at index `i` has its intensity
multiplied by exactly `0.95` and its age incremented by one; a positive
intensity strictly decreases; and the decayed glyph is absent from the owner's
collection exactly when its post-decay intensity is at most `0.1`. -/
theorem glyph_decay_tick (e : NetworkEntity) (r : GlyphRand) (i : ℕ) (g : Glyph)
    (hi : i < e.glyphs.length) (hg : e.glyphs.get ⟨i, hi⟩ = g) :
    (stepGlyph (r.charIdx i) g).intensity = g.intensity * 0.95 ∧
    (stepGlyph (r.charIdx i) g).age = g.age + 1 ∧
    (0 < g.intensity → (stepGlyph (r.charIdx i) g).intensity < g.intensity) ∧
    ((stepGlyph (r.charIdx i) g).intensity ≤ 0.1 →
      stepGlyph (r.charIdx i) g ∉ (updateGlyphs e r).glyphs) ∧
    (0.1 < (stepGlyph (r.charIdx i) g).intensity →
      stepGlyph (r.charIdx i) g ∈ (updateGlyphs e r).glyphs) := by
  refine ⟨rfl, rfl, ?_, ?_, ?_⟩
  · intro hpos
    show g.intensity * 0.95 < g.intensity
    exact mul_lt_of_lt_one_right hpos (by norm_num)
  · intro hle hmem
    rcases mem_updateGlyphs.mp hmem with hd | hf | hw
    · exact absurd hle (not_le.mpr (mem_decayGlyphs _ _ _ _ hd).1)
    · have := (mem_flowSpawn hf).1
      simp [stepGlyph] at this
    · have := (mem_whisperSpawn hw).1
      simp [stepGlyph] at this
  · intro hgt
    apply mem_updateGlyphs.mpr
    left
    have := stepGlyph_mem_decayGlyphs r.charIdx e.glyphs 0 i hi
    rw [Nat.zero_add, hg] at this
    exact this hgt

/-- A concrete glyph used by the witnesses. -/
def glyph0 : Glyph := { type := GlyphType.flow, intensity := 1, position := (0, 0) }

/-- A concrete entity with one glyph used by the witnesses. -/
def ent0 : NetworkEntity :=
  { name := "Silent River (eth0)", interface := "eth0", rx_bytes := 0, tx_bytes := 0,
    rx_rate := 0, tx_rate := 0, essence := 1 / 2, aura := "Moon Silver",
    glyphs := [glyph0], last_seen := 0, whispers := [] }

/-- Concrete glyph randomness whose Bernoulli draws both miss. -/
def rand1 : GlyphRand :=
  { charIdx := fun _ => 0, flowRand := 1, flowPos := (0, 0), flowColor := 1,
    whisperRand := 1, whisperPos := (0, 0), whisperColor := 1 }

/-- Witness for `glyph_decay_tick` at a concrete one-glyph entity. -/
theorem glyph_decay_tick_w :
    (stepGlyph (rand1.charIdx 0) glyph0).intensity = glyph0.intensity * 0.95 ∧
    (stepGlyph (rand1.charIdx 0) glyph0).age = glyph0.age + 1 ∧
    (0 < glyph0.intensity → (stepGlyph (rand1.charIdx 0) glyph0).intensity < glyph0.intensity) ∧
    ((stepGlyph (rand1.charIdx 0) glyph0).intensity ≤ 0.1 →
      stepGlyph (rand1.charIdx 0) glyph0 ∉ (updateGlyphs ent0 rand1).glyphs) ∧
    (0.1 < (stepGlyph (rand1.charIdx 0) glyph0).intensity →
      stepGlyph (rand1.charIdx 0) glyph0 ∈ (updateGlyphs ent0 rand1).glyphs) :=
  glyph_decay_tick ent0 rand1 0 glyph0 (by decide) (by decide)

/-- C7: after `update_glyphs` a fresh Whisper glyph (kind Whisper, age `0`) is
present exactly when the whisper draw is below `essence * 0.2`; such a glyph
carries intensity equal to the entity's essence; and with essence `0` and a
non-negative draw no Whisper glyph is spawned. -/
theorem whisper_spawn_rule (e : NetworkEntity) (r : GlyphRand) :
    ((∃ g ∈ (updateGlyphs e r).glyphs, g.type = GlyphType.whisper ∧ g.age = 0) ↔
      r.whisperRand < e.essence * 0.2) ∧
    (∀ g ∈ (updateGlyphs e r).glyphs, g.type = GlyphType.whisper → g.age = 0 →
      g.intensity = e.essence) ∧
    (e.essence = 0 → 0 ≤ r.whisperRand →
      ¬ ∃ g ∈ (updateGlyphs e r).glyphs, g.type = GlyphType.whisper ∧ g.age = 0) := by
  have hmem : ∀ g ∈ (updateGlyphs e r).glyphs, g.type = GlyphType.whisper → g.age = 0 →
      g ∈ whisperSpawn e r := by
    intro g hg hw ha
    rcases mem_updateGlyphs.mp hg with hd | hf | hws
    · have := (mem_decayGlyphs _ _ _ _ hd).2
      omega
    · have := (mem_flowSpawn hf).2
      rw [hw] at this
      exact absurd this (by simp)
    · exact hws
  have hiff : (∃ g ∈ (updateGlyphs e r).glyphs, g.type = GlyphType.whisper ∧ g.age = 0) ↔
      r.whisperRand < e.essence * 0.2 := by
    constructor
    · rintro ⟨g, hg, hw, ha⟩
      have hws := hmem g hg hw ha
      by_contra hc
      unfold whisperSpawn at hws
      rw [if_neg hc] at hws
      simp at hws
    · intro hc
      refine ⟨{ type := GlyphType.whisper, intensity := e.essence, position := r.whisperPos,
                colorPair := r.whisperColor }, ?_, rfl, rfl⟩
      apply mem_updateGlyphs.mpr
      right; right
      rw [whisperSpawn_fires hc]
      exact List.mem_cons_self _ _
  refine ⟨hiff, ?_, ?_⟩
  · intro g hg hw ha
    exact (mem_whisperSpawn (hmem g hg hw ha)).2.2
  · intro hz hr hex
    have := hiff.mp hex
    rw [hz] at this
    norm_num at this
    exact absurd this (not_lt.mpr hr)

/-- A concrete entity with essence `0` used by the `whisper_spawn_rule` witness. -/
def entZ : NetworkEntity :=
  { name := "Veiled dum0", interface := "dum0", rx_bytes := 0, tx_bytes := 0,
    rx_rate := 0, tx_rate := 0, essence := 0, aura := "Dawn Orange",
    glyphs := [], last_seen := 0, whispers := [] }

/-- Concrete glyph randomness with a non-negative whisper draw. -/
def rand2 : GlyphRand :=
  { charIdx := fun _ => 0, flowRand := 1, flowPos := (0, 0), flowColor := 1,
    whisperRand := 3 / 10, whisperPos := (0, 0), whisperColor := 1 }

/-- Witness for `whisper_spawn_rule`: an essence-`0` entity spawns no Whisper
glyph on a tick with a non-negative draw. -/
theorem whisper_spawn_rule_w :
    ¬ ∃ g ∈ (updateGlyphs entZ rand2).glyphs, g.type = GlyphType.whisper ∧ g.age = 0 :=
  (whisper_spawn_rule entZ rand2).2.2 (by decide) (by norm_num [rand2])

/-! ### Lemmas about the registry lookup and the scan fold -/

/-- Lookup into an in-place update of the registry. -/
lemma lookupEnt_updateEnt (iface k : String) (f : NetworkEntity → NetworkEntity) :
    ∀ l : List (String × NetworkEntity),
      lookupEnt iface (updateEnt k f l) =
        if iface = k then (lookupEnt iface l).map f else lookupEnt iface l := by
  intro l
  induction l with
  | nil => simp [updateEnt, lookupEnt]
  | cons kv rest ih =>
    obtain ⟨k', e⟩ := kv
    by_cases hk : k' = k
    · subst hk
      by_cases hik : iface = k'
      · subst hik
        simp [updateEnt, lookupEnt]
      · have hik' : ¬ k' = iface := fun h => hik h.symm
        simp [updateEnt, lookupEnt, hik, hik']
    · by_cases hik : k' = iface
      · subst hik
        simp [updateEnt, lookupEnt, hk]
      · simp [updateEnt, lookupEnt, hk, hik, ih]

/-- Lookup distributes over registry concatenation. -/
lemma lookupEnt_append (iface : String) :
    ∀ l₁ l₂ : List (String × NetworkEntity),
      lookupEnt iface (l₁ ++ l₂) =
        match lookupEnt iface l₁ with
        | some e => some e
        | none => lookupEnt iface l₂ := by
  intro l₁ l₂
  induction l₁ with
  | nil => simp [lookupEnt]
  | cons kv rest ih =>
    obtain ⟨k, e⟩ := kv
    by_cases hk : k = iface
    · simp [lookupEnt, hk]
    · simp [lookupEnt, hk, ih]

/-- A successful lookup exhibits a registry entry. -/
lemma lookupEnt_some_mem (iface : String) (e : NetworkEntity) :
    ∀ l : List (String × NetworkEntity), lookupEnt iface l = some e → (iface, e) ∈ l := by
  intro l
  induction l with
  | nil => intro h; simp [lookupEnt] at h
  | cons kv rest ih =>
    obtain ⟨k, e'⟩ := kv
    intro h
    by_cases hk : k = iface
    · subst hk
      simp [lookupEnt] at h
      subst h
      exact List.mem_cons_self _ _
    · simp [lookupEnt, hk] at h
      exact List.mem_cons_of_mem _ (ih h)

/-- Lookup into the survivors of the removal pass. -/
lemma lookupEnt_survivorEnts (iface : String) (found : List String) :
    ∀ l : List (String × NetworkEntity),
      lookupEnt iface (survivorEnts found l) =
        if iface ∈ found then lookupEnt iface l else none := by
  intro l
  induction l with
  | nil => simp [survivorEnts, lookupEnt]
  | cons kv rest ih =>
    obtain ⟨k, e⟩ := kv
    by_cases hm : k ∈ found
    · by_cases hk : k = iface
      · subst hk
        simp [survivorEnts, List.filter_cons, hm, lookupEnt]
      · simpa [survivorEnts, List.filter_cons, hm, lookupEnt, hk] using ih
    · by_cases hk : k = iface
      · subst hk
        simpa [survivorEnts, List.filter_cons, hm, lookupEnt] using ih
      · simpa [survivorEnts, List.filter_cons, hm, lookupEnt, hk] using ih

/-- Effect of one scanned line on one interface's registry slot. -/
lemma lookupEnt_processLine (env : ScanEnv) (acc : ScanAcc) (l : NetDevLine) (iface : String) :
    lookupEnt iface (processLine env acc l).entities =
      match lineRowFor env.showLoopback iface l with
      | none => lookupEnt iface acc.entities
      | some data => applyRow env iface (lookupEnt iface acc.entities) data := by
  cases l with
  | junk => simp [processLine, lineRowFor]
  | row name data =>
    by_cases hf : name = "" ∨ (name = "lo" ∧ env.showLoopback = false)
    · simp [processLine, hf, lineRowFor, lineObserved]
    · by_cases hn : name = iface
      · subst hn
        have hobs : lineObserved env.showLoopback (.row name data) = some name := by
          simp [lineObserved, hf]
        by_cases hlen : data.length < 16
        · simp [processLine, hf, hlen, lineRowFor, hobs, applyRow]
        · cases hcur : lookupEnt name acc.entities with
          | some e =>
            simp only [processLine, if_neg hf, hlen, if_false, hcur, lineRowFor, hobs,
              if_pos rfl, applyRow]
            rw [lookupEnt_updateEnt]
            simp [hcur, hlen]
          | none =>
            simp only [processLine, if_neg hf, hlen, if_false, hcur, lineRowFor, hobs,
              if_pos rfl, applyRow]
            rw [lookupEnt_updateEnt]
            rw [lookupEnt_append]
            simp [hcur, lookupEnt, hlen]
      · have hobs : lineRowFor env.showLoopback iface (.row name data) = none := by
          have : ¬ some name = some iface := by
            simp only [Option.some.injEq]
            exact hn
          simp [lineRowFor, lineObserved, hf, this]
        have hni : ¬ iface = name := fun h => hn h.symm
        by_cases hlen : data.length < 16
        · simp [processLine, hf, hlen, hobs]
        · cases hcur : lookupEnt name acc.entities with
          | some e =>
            simp only [processLine, if_neg hf, hlen, if_false, hcur, hobs]
            rw [lookupEnt_updateEnt]
            simp [hni]
          | none =>
            simp only [processLine, if_neg hf, hlen, if_false, hcur, hobs]
            rw [lookupEnt_updateEnt, lookupEnt_append]
            simp only [if_neg hni]
            cases hacc : lookupEnt iface acc.entities with
            | some e' => simp [hacc]
            | none => simp [hacc, lookupEnt, hn]

/-- Effect of one scanned line on the found-set. -/
lemma found_processLine (env : ScanEnv) (acc : ScanAcc) (l : NetDevLine) :
    (processLine env acc l).found =
      acc.found ++ (lineObserved env.showLoopback l).toList := by
  cases l with
  | junk => simp [processLine, lineObserved]
  | row name data =>
    by_cases hf : name = "" ∨ (name = "lo" ∧ env.showLoopback = false)
    · simp [processLine, hf, lineObserved]
    · by_cases hlen : data.length < 16
      · simp [processLine, hf, hlen, lineObserved]
      · cases hcur : lookupEnt name acc.entities with
        | some e => simp [processLine, hf, hlen, lineObserved, hcur]
        | none => simp [processLine, hf, hlen, lineObserved, hcur]

/-- The found-set after the line loop is the observed-name list. -/
lemma found_scanFold (env : ScanEnv) :
    ∀ (lines : List NetDevLine) (acc : ScanAcc),
      (lines.foldl (processLine env) acc).found =
        acc.found ++ observedIfaces env.showLoopback lines := by
  intro lines
  induction lines with
  | nil => intro acc; simp [observedIfaces]
  | cons l rest ih =>
    intro acc
    rw [List.foldl_cons, ih, found_processLine, List.append_assoc]
    cases h : lineObserved env.showLoopback l with
    | none => simp [observedIfaces, List.filterMap_cons, h]
    | some a => simp [observedIfaces, List.filterMap_cons, h]

/-- Master lemma: after the line loop, one interface's registry slot is the
fold of its own rows over its initial slot. -/
lemma lookupEnt_scanFoldAux (env : ScanEnv) (iface : String) :
    ∀ (lines : List NetDevLine) (acc : ScanAcc),
      lookupEnt iface (lines.foldl (processLine env) acc).entities =
        (ifaceRows env.showLoopback iface lines).foldl (applyRow env iface)
          (lookupEnt iface acc.entities) := by
  intro lines
  induction lines with
  | nil => intro acc; simp [ifaceRows]
  | cons l rest ih =>
    intro acc
    rw [List.foldl_cons, ih]
    have h := lookupEnt_processLine env acc l iface
    cases hlr : lineRowFor env.showLoopback iface l with
    | none =>
      rw [hlr] at h
      rw [h]
      simp [ifaceRows, List.filterMap_cons, hlr]
    | some data =>
      rw [hlr] at h
      rw [h]
      simp [ifaceRows, List.filterMap_cons, hlr]

/-- A registry slot is filled after folding a row list exactly when it was
filled before or some row is well-formed. -/
lemma isSome_foldl_applyRow (env : ScanEnv) (iface : String) :
    ∀ (rows : List (List ℤ)) (oe : Option NetworkEntity),
      (rows.foldl (applyRow env iface) oe).isSome ↔
        oe.isSome ∨ ∃ data ∈ rows, ¬ data.length < 16 := by
  intro rows
  induction rows with
  | nil => intro oe; simp
  | cons d rest ih =>
    intro oe
    rw [List.foldl_cons, ih]
    by_cases hlen : d.length < 16
    · have h16 : ¬ 16 ≤ d.length := by omega
      simp [applyRow, hlen, h16]
    · have h16 : 16 ≤ d.length := by omega
      simp [applyRow, hlen, h16]

/-- A line contributing a row for an interface is that interface's row and
passes the name filter. -/
lemma lineRowFor_some {showLb : Bool} {iface : String} {l : NetDevLine} {data : List ℤ}
    (h : lineRowFor showLb iface l = some data) :
    l = NetDevLine.row iface data ∧ ¬ (iface = "" ∨ (iface = "lo" ∧ showLb = false)) := by
  cases l with
  | junk => simp [lineRowFor] at h
  | row name d =>
    by_cases hf : name = "" ∨ (name = "lo" ∧ showLb = false)
    · simp [lineRowFor, lineObserved, hf] at h
    · by_cases hn : name = iface
      · subst hn
        simp [lineRowFor, lineObserved, hf] at h
        subst h
        exact ⟨rfl, hf⟩
      · simp [lineRowFor, lineObserved, hf, hn] at h

/-- An interface with at least one contributing row is observed. -/
lemma mem_observed_of_rows {showLb : Bool} {iface : String} {lines : List NetDevLine}
    (h : ifaceRows showLb iface lines ≠ []) : iface ∈ observedIfaces showLb lines := by
  obtain ⟨data, hdata⟩ := List.exists_mem_of_ne_nil _ h
  obtain ⟨l, hl, hlr⟩ := List.mem_filterMap.mp hdata
  obtain ⟨rfl, hfilter⟩ := lineRowFor_some hlr
  apply List.mem_filterMap.mpr
  exact ⟨_, hl, by simp [lineObserved, hfilter]⟩

/-- An unobserved interface has no contributing rows. -/
lemma rows_nil_of_not_observed {showLb : Bool} {iface : String} {lines : List NetDevLine}
    (h : iface ∉ observedIfaces showLb lines) : ifaceRows showLb iface lines = [] := by
  by_contra hne
  exact h (mem_observed_of_rows hne)

/-- One interface's registry slot after a whole successful scan. -/
lemma lookupEnt_scanSpirits (env : ScanEnv) (st : MysticState) (lines : List NetDevLine)
    (iface : String) :
    lookupEnt iface (scanSpirits env (some lines) st).entities =
      if iface ∈ observedIfaces env.showLoopback lines then
        (ifaceRows env.showLoopback iface lines).foldl (applyRow env iface)
          (lookupEnt iface st.entities)
      else none := by
  show lookupEnt iface
      (survivorEnts (scanFold env st lines).found (scanFold env st lines).entities) = _
  rw [lookupEnt_survivorEnts]
  unfold scanFold
  rw [found_scanFold, lookupEnt_scanFoldAux]
  simp

/-- Field effect of one well-formed row refresh: counters and `last_seen` are
stored, and the rates are re-derived exactly when `now - last_update` is
positive, otherwise retained. -/
lemma sampleUpdate_spec (env : ScanEnv) (iface : String) (rx tx : ℤ) (e : NetworkEntity) :
    (sampleUpdate env iface rx tx e).rx_bytes = rx ∧
    (sampleUpdate env iface rx tx e).tx_bytes = tx ∧
    (sampleUpdate env iface rx tx e).last_seen = env.now ∧
    (sampleUpdate env iface rx tx e).rx_rate =
      (if 0 < env.now - env.lastUpdate
        then ((rx : ℚ) - (e.rx_bytes : ℚ)) / (env.now - env.lastUpdate) else e.rx_rate) ∧
    (sampleUpdate env iface rx tx e).tx_rate =
      (if 0 < env.now - env.lastUpdate
        then ((tx : ℚ) - (e.tx_bytes : ℚ)) / (env.now - env.lastUpdate) else e.tx_rate) := by
  simp only [sampleUpdate, updateGlyphs, rateWhisper, addEntityWhisper]
  split_ifs <;> simp

/-- Unfolding of the contributed rows over a line cons. -/
lemma ifaceRows_cons (showLb : Bool) (iface : String) (l : NetDevLine)
    (rest : List NetDevLine) :
    ifaceRows showLb iface (l :: rest) =
      (lineRowFor showLb iface l).toList ++ ifaceRows showLb iface rest := by
  cases h : lineRowFor showLb iface l <;> simp [ifaceRows, List.filterMap_cons, h]

/-- Scanned lines only append to the event list. -/
lemma events_mono_processLine (env : ScanEnv) (acc : ScanAcc) (l : NetDevLine) {m : String}
    (hm : m ∈ acc.events) : m ∈ (processLine env acc l).events := by
  cases l with
  | junk => exact hm
  | row name data =>
    by_cases hf : name = "" ∨ (name = "lo" ∧ env.showLoopback = false)
    · simpa [processLine, hf] using hm
    · by_cases hlen : data.length < 16
      · simpa [processLine, hf, hlen] using hm
      · cases hcur : lookupEnt name acc.entities with
        | some e => simpa [processLine, hf, hlen, hcur] using hm
        | none =>
          simp [processLine, hf, hlen, hcur]
          exact Or.inl hm

/-- Processing a well-formed row of an untracked interface emits its creation
event. -/
lemma appear_event_processLine (env : ScanEnv) (acc : ScanAcc) (iface : String)
    (data : List ℤ) (hnone : lookupEnt iface acc.entities = none)
    (hfilter : ¬ (iface = "" ∨ (iface = "lo" ∧ env.showLoopback = false)))
    (hwf : ¬ data.length < 16) :
    appearMsg env (env.fresh iface).spiritName ∈
      (processLine env acc (.row iface data)).events := by
  simp [processLine, hfilter, hwf, hnone]

/-- Through the line loop, an untracked interface with some well-formed row
gets its creation event emitted. -/
lemma appear_event_fold (env : ScanEnv) (iface : String) :
    ∀ (lines : List NetDevLine) (acc : ScanAcc),
      (appearMsg env (env.fresh iface).spiritName ∈ acc.events ∨
        (lookupEnt iface acc.entities = none ∧ wellObserved env.showLoopback iface lines)) →
      appearMsg env (env.fresh iface).spiritName ∈ (lines.foldl (processLine env) acc).events := by
  intro lines
  induction lines with
  | nil =>
    intro acc h
    rcases h with h | ⟨-, hw⟩
    · exact h
    · exact absurd hw (by simp [wellObserved, ifaceRows])
  | cons l rest ih =>
    intro acc h
    rw [List.foldl_cons]
    apply ih
    rcases h with h | ⟨hnone, hw⟩
    · exact Or.inl (events_mono_processLine env acc l h)
    · cases hlr : lineRowFor env.showLoopback iface l with
      | none =>
        right
        refine ⟨?_, ?_⟩
        · have hpl := lookupEnt_processLine env acc l iface
          rw [hlr] at hpl
          rw [hpl, hnone]
        · obtain ⟨d, hd, hdwf⟩ := hw
          rw [ifaceRows_cons, hlr] at hd
          exact ⟨d, by simpa using hd, hdwf⟩
      | some data =>
        obtain ⟨rfl, hfilter⟩ := lineRowFor_some hlr
        by_cases hlen : data.length < 16
        · right
          refine ⟨?_, ?_⟩
          · have hpl := lookupEnt_processLine env acc (.row iface data) iface
            rw [hlr] at hpl
            rw [hpl]
            simp [applyRow, hlen, hnone]
          · obtain ⟨d, hd, hdwf⟩ := hw
            rw [ifaceRows_cons, hlr] at hd
            simp only [Option.toList_some, List.singleton_append, List.mem_cons] at hd
            rcases hd with rfl | hd
            · exact absurd hlen hdwf
            · exact ⟨d, hd, hdwf⟩
        · exact Or.inl (appear_event_processLine env acc iface data hnone hfilter hlen)

/-- A tracked interface absent from a scan gets its removal event emitted. -/
lemma faded_event (env : ScanEnv) (st : MysticState) (lines : List NetDevLine)
    (iface : String) (e0 : NetworkEntity) (h0 : lookupEnt iface st.entities = some e0)
    (hno : iface ∉ observedIfaces env.showLoopback lines) :
    fadedMsg env e0.name ∈ scanEvents env st lines := by
  have hrows := rows_nil_of_not_observed hno
  have hlook : lookupEnt iface (scanFold env st lines).entities = some e0 := by
    unfold scanFold
    rw [lookupEnt_scanFoldAux, hrows]
    exact h0
  have hfound : (scanFold env st lines).found = observedIfaces env.showLoopback lines := by
    unfold scanFold
    rw [found_scanFold]
    simp
  have hmem : (iface, e0) ∈ (scanFold env st lines).entities :=
    lookupEnt_some_mem _ _ _ hlook
  have hexp : (iface, e0) ∈
      expiredEnts (scanFold env st lines).found (scanFold env st lines).entities := by
    apply List.mem_filter.mpr
    refine ⟨hmem, ?_⟩
    rw [hfound]
    simpa using hno
  show fadedMsg env e0.name ∈
      (scanFold env st lines).events ++
        (expiredEnts (scanFold env st lines).found (scanFold env st lines).entities).map
          (fun kv => fadedMsg env kv.2.name)
  apply List.mem_append_right
  apply List.mem_map.mpr
  exact ⟨(iface, e0), hexp, rfl⟩

/-! ### Claim theorems on the scan -/

/-- C9: on a total read failure of the counter source the scan raises nothing:
the tracked entity map is retained exactly (nothing created, updated or
removed) and a recoverable warning is appended to the global collector. -/
theorem scan_read_failure (env : ScanEnv) (st : MysticState) :
    (scanSpirits env none st).entities = st.entities ∧
    (scanSpirits env none st).whispers = pushWhisper st.whispers (scanFailMsg env) :=
  ⟨rfl, rfl⟩

/-- C10: when the only row of an already-tracked interface is malformed (has a
name and colon but fewer than 16 data fields), the interface still counts as
present — the entity survives the scan with every field exactly as it was. -/
theorem malformed_row_retention (env : ScanEnv) (st : MysticState) (lines : List NetDevLine)
    (iface : String) (e0 : NetworkEntity) (data : List ℤ)
    (h0 : lookupEnt iface st.entities = some e0)
    (hrows : ifaceRows env.showLoopback iface lines = [data])
    (hmal : data.length < 16) :
    lookupEnt iface (scanSpirits env (some lines) st).entities = some e0 := by
  have hobs : iface ∈ observedIfaces env.showLoopback lines :=
    mem_observed_of_rows (by rw [hrows]; simp)
  rw [lookupEnt_scanSpirits, if_pos hobs, hrows, h0]
  simp [applyRow, hmal]

/-- C1 (amended): a tracked interface observed again with a well-formed row
has its counters and `last_seen` stored; the rates are re-derived as
`(new - old) / (now - last_update)` when `now - last_update` is positive
(`last_update` is the mystic-level cycle stamp, not the entity's `last_seen`),
and retained unchanged otherwise. -/
theorem rate_derivation (env : ScanEnv) (st : MysticState) (lines : List NetDevLine)
    (iface : String) (e0 : NetworkEntity) (data : List ℤ)
    (h0 : lookupEnt iface st.entities = some e0)
    (hrows : ifaceRows env.showLoopback iface lines = [data])
    (hwf : ¬ data.length < 16) :
    ∃ e', lookupEnt iface (scanSpirits env (some lines) st).entities = some e' ∧
      e'.rx_bytes = data.getD 0 0 ∧ e'.tx_bytes = data.getD 8 0 ∧ e'.last_seen = env.now ∧
      (0 < env.now - env.lastUpdate →
        e'.rx_rate = (((data.getD 0 0 : ℤ) : ℚ) - (e0.rx_bytes : ℚ)) /
            (env.now - env.lastUpdate) ∧
        e'.tx_rate = (((data.getD 8 0 : ℤ) : ℚ) - (e0.tx_bytes : ℚ)) /
            (env.now - env.lastUpdate)) ∧
      (¬ 0 < env.now - env.lastUpdate →
        e'.rx_rate = e0.rx_rate ∧ e'.tx_rate = e0.tx_rate) := by
  have hobs : iface ∈ observedIfaces env.showLoopback lines :=
    mem_observed_of_rows (by rw [hrows]; simp)
  obtain ⟨h1, h2, h3, h4, h5⟩ :=
    sampleUpdate_spec env iface (data.getD 0 0) (data.getD 8 0) e0
  refine ⟨_, ?_, h1, h2, h3, ?_, ?_⟩
  · rw [lookupEnt_scanSpirits, if_pos hobs, hrows, h0]
    simp [applyRow, hwf]
  · intro hdt
    exact ⟨by rw [h4, if_pos hdt], by rw [h5, if_pos hdt]⟩
  · intro hdt
    exact ⟨by rw [h4, if_neg hdt], by rw [h5, if_neg hdt]⟩

/-- C5 (amended): on the very scan that creates an entity, its rates are
already derived from the fresh zero counters whenever `now - last_update` is
positive (giving `rate = newCounter / dt`); they stay at zero only when
`now - last_update` is not positive. -/
theorem first_sample_rate (env : ScanEnv) (st : MysticState) (lines : List NetDevLine)
    (iface : String) (data : List ℤ)
    (h0 : lookupEnt iface st.entities = none)
    (hrows : ifaceRows env.showLoopback iface lines = [data])
    (hwf : ¬ data.length < 16) :
    ∃ e', lookupEnt iface (scanSpirits env (some lines) st).entities = some e' ∧
      e'.rx_bytes = data.getD 0 0 ∧ e'.tx_bytes = data.getD 8 0 ∧
      (0 < env.now - env.lastUpdate →
        e'.rx_rate = ((data.getD 0 0 : ℤ) : ℚ) / (env.now - env.lastUpdate) ∧
        e'.tx_rate = ((data.getD 8 0 : ℤ) : ℚ) / (env.now - env.lastUpdate)) ∧
      (¬ 0 < env.now - env.lastUpdate → e'.rx_rate = 0 ∧ e'.tx_rate = 0) := by
  have hobs : iface ∈ observedIfaces env.showLoopback lines :=
    mem_observed_of_rows (by rw [hrows]; simp)
  obtain ⟨h1, h2, h3, h4, h5⟩ :=
    sampleUpdate_spec env iface (data.getD 0 0) (data.getD 8 0)
      (freshEntity iface (env.fresh iface))
  refine ⟨_, ?_, h1, h2, ?_, ?_⟩
  · rw [lookupEnt_scanSpirits, if_pos hobs, hrows, h0]
    simp [applyRow, hwf]
  · intro hdt
    refine ⟨?_, ?_⟩
    · rw [h4, if_pos hdt]
      simp [freshEntity]
    · rw [h5, if_pos hdt]
      simp [freshEntity]
  · intro hdt
    refine ⟨?_, ?_⟩
    · rw [h4, if_neg hdt]
      rfl
    · rw [h5, if_neg hdt]
      rfl

/-! ### Concrete scan inputs for counterexamples and witnesses -/

/-- Concrete creation randomness. -/
def fresh1 : FreshParams :=
  { spiritName := "Whispering eth0", essence := 1 / 2, aura := "Moon Silver",
    initLastSeen := 0 }

/-- Concrete scan environment: scan at time 2, previous cycle stamp 0. -/
def envA : ScanEnv :=
  { now := 2, lastUpdate := 0, showLoopback := false, fresh := fun _ => fresh1,
    rand := fun _ => rand1, entityTs := "12:00:00", collectorTs := "2026-01-01 12:00:00",
    failText := "unreadable" }

/-- A well-formed 16-field row for eth0 with rx = 24, tx = 48. -/
def dataA : List ℤ := [24, 0, 0, 0, 0, 0, 0, 0, 48, 0, 0, 0, 0, 0, 0, 0]

/-- The eth0 row as a line. -/
def rowA : NetDevLine := .row "eth0" dataA

/-- A state tracking eth0 as `ent0`. -/
def stA : MysticState := { entities := [("eth0", ent0)], whispers := [] }

/-- The empty mystic state. -/
def stEmpty : MysticState := { entities := [], whispers := [] }

/-- A tracked entity whose `last_seen` (0) lags the cycle stamp. -/
def entStale : NetworkEntity :=
  { name := "Stale Spirit", interface := "eth0", rx_bytes := 0, tx_bytes := 0, rx_rate := 0,
    tx_rate := 0, essence := 1 / 2, aura := "Dusk Red", glyphs := [], last_seen := 0,
    whispers := [] }

/-- Scan at time 12 with cycle stamp 10 (entity last seen at 0). -/
def envStale : ScanEnv := { envA with now := 12, lastUpdate := 10 }

/-- A state tracking the stale entity. -/
def stStale : MysticState := { entities := [("eth0", entStale)], whispers := [] }

/-- A well-formed row for wlan0 with rx = 1000, tx = 500. -/
def dataB : List ℤ := [1000, 0, 0, 0, 0, 0, 0, 0, 500, 0, 0, 0, 0, 0, 0, 0]

/-- The wlan0 row as a line. -/
def rowB : NetDevLine := .row "wlan0" dataB

/-- A malformed eth0 row: name and colon present, only three data fields. -/
def rowMal : NetDevLine := .row "eth0" [1, 2, 3]

/-- Witness for `malformed_row_retention`: eth0's entity survives a scan whose
only eth0 row is malformed, bit for bit. -/
theorem malformed_row_retention_w :
    lookupEnt "eth0" (scanSpirits envA (some [rowMal]) stA).entities = some ent0 :=
  malformed_row_retention envA stA [rowMal] "eth0" ent0 [1, 2, 3]
    rfl rfl (by decide)

/-- C1 counterexample: with `now - last_seen = 12 > 0` but cycle stamp
`last_update = 10`, the scan stores rate `24 / 2 = 12`, not the claimed
`24 / 12 = 2`. -/
theorem rate_derivation_cx :
    0 < envStale.now - entStale.last_seen ∧
    Option.map NetworkEntity.rx_rate
      (lookupEnt "eth0" (scanSpirits envStale (some [rowA]) stStale).entities) = some 12 ∧
    (((dataA.getD 0 0 : ℤ) : ℚ) - (entStale.rx_bytes : ℚ)) /
        (envStale.now - entStale.last_seen) = 2 ∧
    (12 : ℚ) ≠ 2 := by
  have hlk : lookupEnt "eth0" (scanSpirits envStale (some [rowA]) stStale).entities
      = some (sampleUpdate envStale "eth0" (dataA.getD 0 0) (dataA.getD 8 0) entStale) := rfl
  obtain ⟨-, -, -, h4, -⟩ :=
    sampleUpdate_spec envStale "eth0" (dataA.getD 0 0) (dataA.getD 8 0) entStale
  have hd0 : dataA.getD 0 0 = 24 := rfl
  have hdt : (0 : ℚ) < envStale.now - envStale.lastUpdate := by
    norm_num [envStale, envA]
  refine ⟨by norm_num [envStale, envA, entStale], ?_, ?_, by norm_num⟩
  · rw [hlk, Option.map_some', h4, if_pos hdt, hd0]
    norm_num [envStale, envA, entStale]
  · rw [hd0]
    norm_num [envStale, envA, entStale]

/-- Witness for `rate_derivation` at a concrete re-observed entity. -/
theorem rate_derivation_w :
    ∃ e', lookupEnt "eth0" (scanSpirits envA (some [rowA]) stA).entities = some e' ∧
      e'.rx_bytes = dataA.getD 0 0 ∧ e'.tx_bytes = dataA.getD 8 0 ∧ e'.last_seen = envA.now ∧
      (0 < envA.now - envA.lastUpdate →
        e'.rx_rate = (((dataA.getD 0 0 : ℤ) : ℚ) - (ent0.rx_bytes : ℚ)) /
            (envA.now - envA.lastUpdate) ∧
        e'.tx_rate = (((dataA.getD 8 0 : ℤ) : ℚ) - (ent0.tx_bytes : ℚ)) /
            (envA.now - envA.lastUpdate)) ∧
      (¬ 0 < envA.now - envA.lastUpdate →
        e'.rx_rate = ent0.rx_rate ∧ e'.tx_rate = ent0.tx_rate) :=
  rate_derivation envA stA [rowA] "eth0" ent0 dataA rfl rfl (by decide)

/-- C5 counterexample: a brand-new interface (rx = 1000) gets rate
`1000 / 2 = 500` on its very first scan — not the claimed zero. -/
theorem first_sample_rate_cx :
    lookupEnt "wlan0" stEmpty.entities = none ∧
    Option.map NetworkEntity.rx_rate
      (lookupEnt "wlan0" (scanSpirits envA (some [rowB]) stEmpty).entities) = some 500 ∧
    (500 : ℚ) ≠ 0 := by
  have hlk : lookupEnt "wlan0" (scanSpirits envA (some [rowB]) stEmpty).entities
      = some (sampleUpdate envA "wlan0" (dataB.getD 0 0) (dataB.getD 8 0)
          (freshEntity "wlan0" (envA.fresh "wlan0"))) := rfl
  obtain ⟨-, -, -, h4, -⟩ :=
    sampleUpdate_spec envA "wlan0" (dataB.getD 0 0) (dataB.getD 8 0)
      (freshEntity "wlan0" (envA.fresh "wlan0"))
  have hd0 : dataB.getD 0 0 = 1000 := rfl
  have hdt : (0 : ℚ) < envA.now - envA.lastUpdate := by norm_num [envA]
  refine ⟨rfl, ?_, by norm_num⟩
  rw [hlk, Option.map_some', h4, if_pos hdt, hd0]
  norm_num [envA, freshEntity]

/-- Witness for `first_sample_rate` at a concrete first-seen interface. -/
theorem first_sample_rate_w :
    ∃ e', lookupEnt "wlan0" (scanSpirits envA (some [rowB]) stEmpty).entities = some e' ∧
      e'.rx_bytes = dataB.getD 0 0 ∧ e'.tx_bytes = dataB.getD 8 0 ∧
      (0 < envA.now - envA.lastUpdate →
        e'.rx_rate = ((dataB.getD 0 0 : ℤ) : ℚ) / (envA.now - envA.lastUpdate) ∧
        e'.tx_rate = ((dataB.getD 8 0 : ℤ) : ℚ) / (envA.now - envA.lastUpdate)) ∧
      (¬ 0 < envA.now - envA.lastUpdate → e'.rx_rate = 0 ∧ e'.tx_rate = 0) :=
  first_sample_rate envA stEmpty [rowB] "wlan0" dataB rfl rfl (by decide)

/-- C2 (amended): after a successful scan an interface is in the registry iff
it was observed and was either already tracked or had a well-formed row; a
well-formed row of an untracked interface emits a creation event; a tracked
interface absent from the scan emits a removal event; and those events are
exactly what the scan pushes to the global collector. -/
theorem registry_sync (env : ScanEnv) (st : MysticState) (lines : List NetDevLine)
    (iface : String) :
    ((lookupEnt iface (scanSpirits env (some lines) st).entities).isSome ↔
      iface ∈ observedIfaces env.showLoopback lines ∧
        ((lookupEnt iface st.entities).isSome ∨ wellObserved env.showLoopback iface lines)) ∧
    (lookupEnt iface st.entities = none → wellObserved env.showLoopback iface lines →
      appearMsg env (env.fresh iface).spiritName ∈ scanEvents env st lines) ∧
    (∀ e0, lookupEnt iface st.entities = some e0 →
      iface ∉ observedIfaces env.showLoopback lines →
      fadedMsg env e0.name ∈ scanEvents env st lines) ∧
    (scanSpirits env (some lines) st).whispers =
      pushMany st.whispers (scanEvents env st lines) := by
  refine ⟨?_, ?_, ?_, rfl⟩
  · rw [lookupEnt_scanSpirits]
    by_cases hobs : iface ∈ observedIfaces env.showLoopback lines
    · rw [if_pos hobs, isSome_foldl_applyRow]
      simp [hobs, wellObserved]
    · simp [hobs]
  · intro hnone hw
    have hm := appear_event_fold env iface lines ⟨st.entities, [], []⟩ (Or.inr ⟨hnone, hw⟩)
    show appearMsg env (env.fresh iface).spiritName ∈
        (scanFold env st lines).events ++
          (expiredEnts (scanFold env st lines).found (scanFold env st lines).entities).map
            (fun kv => fadedMsg env kv.2.name)
    exact List.mem_append_left _ hm
  · intro e0 h0 hno
    exact faded_event env st lines iface e0 h0 hno

/-- C2 counterexample: a malformed row of an untracked interface is counted as
observed, yet creates no registry entry — presence is not equivalent to
having been observed. -/
theorem registry_sync_cx :
    "dum0" ∈ observedIfaces envA.showLoopback [NetDevLine.row "dum0" [1, 2, 3]] ∧
    lookupEnt "dum0"
      (scanSpirits envA (some [NetDevLine.row "dum0" [1, 2, 3]]) stEmpty).entities = none :=
  ⟨by decide, rfl⟩

/-- Witness for `registry_sync`: the creation event of a fresh well-formed
interface is emitted. -/
theorem registry_sync_w :
    appearMsg envA (envA.fresh "wlan0").spiritName ∈ scanEvents envA stEmpty [rowB] :=
  (registry_sync envA stEmpty [rowB] "wlan0").2.1 rfl ⟨dataB, by decide, by decide⟩

/-! ### Configuration and display formatters -/

/-- `MysticConfig` with its defaults. -/
structure MysticConfig where
  update_interval : ℚ := 1
  glyph_density : ℚ := 0.3
  show_whispers : Bool := true
  show_aura : Bool := true
  ancient_script : Bool := true
  encrypt_logs : Bool := false
  log_file : String := "network_mysteries.log"
  ritual_timeout : ℕ := 30
  max_spirits : ℕ := 20
  show_loopback : Bool := false

/-- The twenty numeral symbols of `AncientScript.encode_number`. -/
def ancientSymbols : List String :=
  ["Ⅰ", "Ⅱ", "Ⅲ", "Ⅳ", "Ⅴ", "Ⅵ", "Ⅶ", "Ⅷ", "Ⅸ", "Ⅹ",
   "Ⅺ", "Ⅻ", "ↀ", "ↁ", "ↂ", "Ↄ", "ↅ", "ↆ", "ↇ", "ↈ"]

/-- The digit loop of `encode_number` (symbols in append order). -/
def encodeNumberLoop (m : ℕ) : List String :=
  if h : m = 0 then []
  else ancientSymbols.getD ((m - 1) % 20) " " :: encodeNumberLoop (m / 20)
decreasing_by exact Nat.div_lt_self (Nat.pos_of_ne_zero h) (by omega)

/-- `AncientScript.encode_number`. -/
def encodeNumber (num : ℚ) : String :=
  if num < 1 then "↊"
  else String.join ((encodeNumberLoop (pyTrunc num).toNat).reverse)

/-- Rate unit strings of `AncientScript.encode_rate`. -/
def ancientUnits : List String := ["Ⓑ/ⓢ", "ⓀⒷ/ⓢ", "ⓂⒷ/ⓢ", "ⒼⒷ/ⓢ", "ⓉⒷ/ⓢ"]

/-- Divisors of `AncientScript.encode_rate`. -/
def ancientDivisors : List ℚ := [1, 1024, 1048576, 1073741824, 1099511627776]

/-- The descending unit loop of `encode_rate`. -/
def encodeRateLoop (rate : ℚ) : List ℕ → String
  | [] => "↊ " ++ ancientUnits.getD 0 " "
  | i :: rest =>
    if ancientDivisors.getD i 1 ≤ rate then
      encodeNumber (rate / ancientDivisors.getD i 1) ++ " " ++ ancientUnits.getD i " "
    else encodeRateLoop rate rest

/-- `AncientScript.encode_rate`. -/
def encodeRate (rate : ℚ) : String := encodeRateLoop rate [4, 3, 2, 1, 0]

/-- Round to the nearest integer, ties to even (CPython fixed-point rounding
of the ideal value). -/
def roundHalfEven (q : ℚ) : ℤ :=
  if q - ⌊q⌋ < 1 / 2 then ⌊q⌋
  else if 1 / 2 < q - ⌊q⌋ then ⌊q⌋ + 1
  else if ⌊q⌋ % 2 = 0 then ⌊q⌋ else ⌊q⌋ + 1

/-- Python `f"{q:.df}"` on the ideal rational value. -/
def fmtFixed (q : ℚ) (d : ℕ) : String :=
  let scaled := roundHalfEven (q * (10 ^ d : ℕ))
  let n := scaled.natAbs
  let intPart := n / 10 ^ d
  let fracStr := toString (n % 10 ^ d)
  let fracPad := String.join (List.replicate (d - fracStr.length) "0") ++ fracStr
  (if scaled < 0 then "-" else "") ++ toString intPart ++
    (if d = 0 then "" else "." ++ fracPad)

/-- Unit strings of `NetworkMystic.format_rate`. -/
def rateUnits : List String := ["B/s", "KB/s", "MB/s", "GB/s", "TB/s"]

/-- The unit loop of `format_rate` (the last unit always formats). -/
def formatRateLoop (rate : ℚ) : List String → String
  | [] => "0 B/s"
  | u :: rest =>
    if rate < 1024 ∨ rest = [] then fmtFixed rate 1 ++ " " ++ u
    else formatRateLoop (rate / 1024) rest

/-- `NetworkMystic.format_rate`. -/
def formatRate (rate : ℚ) : String := formatRateLoop rate rateUnits

/-- Hour symbols of `AncientScript.get_mystic_time`. -/
def hourSymbols : List String :=
  ["子", "丑", "寅", "卯", "辰", "巳", "午", "未", "申", "酉", "戌", "亥"]

/-- Minute symbols of `AncientScript.get_mystic_time`. -/
def minuteSymbols : List String :=
  ["初", "壹", "贰", "叁", "肆", "伍", "陆", "柒", "捌", "玖", "拾"]

/-- `AncientScript.get_mystic_time` on an injected wall-clock hour/minute. -/
def getMysticTime (hour minute : ℕ) : String :=
  hourSymbols.getD (hour % 12) " " ++ minuteSymbols.getD (minute / 6) " " ++ "刻"

/-! ### The renderer: grid writes, curses error propagation, frame layout

A grid write is `addstr(y, x, s)`.  `curses` raises `curses.error` when the
write does not fit the screen; the code wraps every write either in its own
`try/except: pass` (modelled by `tryW`: the write is dropped, drawing goes on)
or in a surrounding function-level handler (modelled by the `WDraw` sum: `rawW`
moves to the error state `inl`, where the remaining writes of that function are
skipped, and `catchW` resumes at the function boundary exactly like the
`except curses.error: pass` at the end of `draw_spirit_info`). -/

/-- One emitted grid write. -/
structure Wr where
  y : ℤ
  x : ℤ
  s : String
deriving DecidableEq

/-- A write lies inside the `h x w` grid (start on screen, string fits the
row). -/
def wrInB (h w : ℤ) (wr : Wr) : Prop :=
  0 ≤ wr.y ∧ wr.y < h ∧ 0 ≤ wr.x ∧ wr.x < w ∧ wr.x + (wr.s.length : ℤ) ≤ w

instance (h w : ℤ) (wr : Wr) : Decidable (wrInB h w wr) := by
  unfold wrInB
  infer_instance

/-- Drawing state: `inl` = a `curses.error` is in flight (writes so far kept,
further writes skipped until caught), `inr` = normal. -/
abbrev WDraw : Type := List Wr ⊕ List Wr

/-- An `addstr` wrapped in its own `try/except: pass`. -/
def tryW (h w y x : ℤ) (s : String) (ws : List Wr) : List Wr :=
  if wrInB h w ⟨y, x, s⟩ then ws ++ [⟨y, x, s⟩] else ws

/-- A bare `addstr` inside a function-level handler: an out-of-grid write
raises, skipping the rest of the function body. -/
def rawW (h w y x : ℤ) (s : String) : WDraw → WDraw
  | .inl ws => .inl ws
  | .inr ws => if wrInB h w ⟨y, x, s⟩ then .inr (ws ++ [⟨y, x, s⟩]) else .inl ws

/-- Lift a non-raising drawing step into the error-tracking state. -/
def mapW (f : List Wr → List Wr) : WDraw → WDraw
  | .inl ws => .inl ws
  | .inr ws => .inr (f ws)

/-- The function-level `except curses.error: pass`. -/
def catchW : WDraw → List Wr
  | .inl ws => ws
  | .inr ws => ws

/-- Python `range(n)` as integers. -/
def intRange (n : ℤ) : List ℤ := (List.range n.toNat).map (fun i => (i : ℤ))

/-- Python `range(a, b)` as integers. -/
def intRangeFrom (a b : ℤ) : List ℤ := (List.range (b - a).toNat).map (fun i => a + i)

/-- One row of `draw_veil_border` (each write in its own `try`). -/
def borderRow (h w y : ℤ) (ws : List Wr) : List Wr :=
  if y = 0 then tryW h w y 0 ("╔" ++ strRepeat "═" (w - 2) ++ "╗") ws
  else if y = h - 1 then tryW h w y 0 ("╚" ++ strRepeat "═" (w - 2) ++ "╝") ws
  else tryW h w y (w - 1) "║" (tryW h w y 0 "║" ws)

/-- `NetworkMystic.draw_veil_border`. -/
def drawVeilBorder (h w : ℤ) (ws : List Wr) : List Wr :=
  (intRange h).foldl (fun ws y => borderRow h w y ws) ws

/-- `NetworkMystic.render_glyph`: explicit bounds check, then a guarded
write of the glyph character (display attributes are not modelled). -/
def renderGlyph (h w : ℤ) (g : Glyph) (offX offY : ℤ) (ws : List Wr) : List Wr :=
  if 0 ≤ offX + g.position.1 ∧ offX + g.position.1 < w ∧
      0 ≤ offY + g.position.2 ∧ offY + g.position.2 < h then
    tryW h w (offY + g.position.2) (offX + g.position.1) g.char ws
  else ws

/-- The eight bar characters of `render_flow_visualization`. -/
def barGlyphs : List String := ["▁", "▂", "▃", "▄", "▅", "▆", "▇", "█"]

/-- `NetworkMystic.render_flow_visualization` (its `width` argument is unused
in the source). -/
def renderFlowViz (h w : ℤ) (rx tx : ℚ) (x y : ℤ) (ws : List Wr) : List Wr :=
  (intRange (min (pyTrunc (tx / 1000 * 5)) 5)).foldl
    (fun ws i => tryW h w (y + 4 - i) (x + 2) (barGlyphs.getD (min (i.toNat * 8 / 5) 7) " ") ws)
    ((intRange (min (pyTrunc (rx / 1000 * 5)) 5)).foldl
      (fun ws i => tryW h w (y + 4 - i) x (barGlyphs.getD (min (i.toNat * 8 / 5) 7) " ") ws)
      ws)

/-- Per-frame external inputs of the renderer: the address-lookup collaborator
and the wall clock. -/
structure RenderEnv where
  ipsOf : String → List String
  hour : ℕ
  minute : ℕ

/-- The per-entity whisper loop of `draw_spirit_info`: each message row is
written guarded; the row cursor advances only after a successful write. -/
def whisperLoop (h w : ℤ) (msgs : List String) (st : WDraw × ℤ) : WDraw × ℤ :=
  msgs.foldl (fun p m =>
    match p.1 with
    | .inl ws => (.inl ws, p.2)
    | .inr ws =>
      if p.2 < h - 2 then
        if wrInB h w ⟨p.2, 2, "│  " ++ m⟩ then
          (.inr (ws ++ [⟨p.2, 2, "│  " ++ m⟩]), p.2 + 1)
        else (.inr ws, p.2)
      else (.inr ws, p.2)) st

/-- `NetworkMystic.draw_spirit_info`: six bare writes (a failure skips the rest
of the block), the guarded flow bars, the guarded whisper rows, the guarded
closing line, the glyph overlay, all under the function-level handler. -/
def drawSpiritInfo (cfg : MysticConfig) (renv : RenderEnv) (h w : ℤ) (e : NetworkEntity)
    (yStart : ℤ) (ws : List Wr) : List Wr :=
  let ips := renv.ipsOf e.interface
  let ipDisplay := if ips ≠ [] then String.intercalate ", " ips else "[No physical form]"
  let rxDisplay := if cfg.ancient_script then encodeRate e.rx_rate else formatRate e.rx_rate
  let txDisplay := if cfg.ancient_script then encodeRate e.tx_rate else formatRate e.tx_rate
  let s1 := rawW h w yStart 2 ("╭─ " ++ e.name) (.inr ws)
  let s2 := rawW h w (yStart + 1) 2 ("│  Aura: " ++ e.aura) s1
  let s3 := rawW h w (yStart + 2) 2 ("│  From Beyond: " ++ rxDisplay) s2
  let s4 := rawW h w (yStart + 3) 2 ("│  To Void:     " ++ txDisplay) s3
  let s5 := rawW h w (yStart + 4) 2 ("│  Essence: " ++ fmtFixed e.essence 2) s4
  let s6 := rawW h w (yStart + 5) 2 ("│  Form: " ++ ipDisplay) s5
  let s7 := mapW (renderFlowViz h w e.rx_rate e.tx_rate 40 (yStart + 1)) s6
  let p := whisperLoop h w (takeLast e.whispers 2) (s7, yStart + 6)
  let s8 := mapW (tryW h w p.2 2 ("╰" ++ strRepeat "─" (w - 4))) p.1
  let s9 := mapW (fun ws =>
    e.glyphs.foldl (fun ws g => renderGlyph h w g 25 (yStart - 4) ws) ws) s8
  catchW s9

/-- The descending stable sort key `rx_rate + tx_rate`. -/
def rateKey (e : NetworkEntity) : ℚ := e.rx_rate + e.tx_rate

/-- The descending comparison of the sort (`a` may precede `b`). -/
def spiritGE (a b : NetworkEntity) : Prop := rateKey b ≤ rateKey a

instance : DecidableRel spiritGE := fun a b => by
  unfold spiritGE
  infer_instance

instance : IsTotal NetworkEntity spiritGE :=
  ⟨fun a b => le_total (rateKey b) (rateKey a)⟩

instance : IsTrans NetworkEntity spiritGE :=
  ⟨fun _ _ _ hab hbc => le_trans hbc hab⟩

/-- `sorted(self.entities.values(), key=rate, reverse=True)`: a stable
descending sort over the registry values in insertion order (stable sorts of a
total preorder agree, so a structural insertion sort models CPython's stable
sort exactly). -/
def sortedSpirits (ents : List (String × NetworkEntity)) : List NetworkEntity :=
  (ents.map Prod.snd).insertionSort spiritGE

/-- The visible-block loop of `draw_veil`: starting at row 2, a block is drawn
only while `y < height - 10`, and `y` advances by 9 per drawn block. -/
def visiblePairs (h : ℤ) : List NetworkEntity → ℤ → List (NetworkEntity × ℤ)
  | [], _ => []
  | e :: rest, y =>
    if y < h - 10 then (e, y) :: visiblePairs h rest (y + 9) else visiblePairs h rest y

/-- The entity blocks a frame draws, in draw order. -/
def visibleSpirits (cfg : MysticConfig) (h : ℤ) (ents : List (String × NetworkEntity)) :
    List NetworkEntity :=
  (visiblePairs h ((sortedSpirits ents).take cfg.max_spirits) 2).map Prod.fst

/-- `NetworkMystic.draw_status_bar` (all writes guarded, own handler). -/
def drawStatusBar (cfg : MysticConfig) (renv : RenderEnv) (h w : ℤ)
    (ents : List (String × NetworkEntity)) (ws : List Wr) : List Wr :=
  let totalRx := ((ents.map Prod.snd).map NetworkEntity.rx_rate).sum
  let totalTx := ((ents.map Prod.snd).map NetworkEntity.tx_rate).sum
  let rxDisp := if cfg.ancient_script then encodeRate totalRx else formatRate totalRx
  let txDisp := if cfg.ancient_script then encodeRate totalTx else formatRate totalTx
  let status0 := "Total Flow: " ++ rxDisp ++ " ╫ " ++ txDisp ++ " │ Spirits: " ++
    toString ents.length ++ " │ " ++ getMysticTime renv.hour renv.minute
  let status := if (w - 4 : ℤ) < (status0.length : ℤ) then pyTakeStr status0 (w - 4)
    else status0
  tryW h w (h - 3) (max 0 ((w - (status.length : ℤ)) / 2)) status ws

/-- `NetworkMystic.draw_whispers_panel` (all writes guarded, own handler). -/
def drawWhispersPanel (cfg : MysticConfig) (h w : ℤ) (whispers : List String)
    (ws : List Wr) : List Wr :=
  if cfg.show_whispers = false then ws
  else
    let panelWidth := min 50 (w - 2)
    let panelX := w - panelWidth - 1
    let ws := tryW h w 1 panelX "╭─[Whispers]─" ws
    let recent := takeLast whispers 8
    let ws := recent.enum.foldl (fun ws p =>
      if (p.1 : ℤ) < h - 4 then
        tryW h w (2 + (p.1 : ℤ)) panelX ("│" ++ pyTakeStr p.2 (panelWidth - 2)) ws
      else ws) ws
    let m := min ((recent.length : ℤ) + 2) (h - 2)
    let ws := (intRangeFrom 1 m).foldl
      (fun ws y => tryW h w y (panelX + panelWidth) "│" ws) ws
    tryW h w m panelX ("╰" ++ strRepeat "─" panelWidth) ws

/-- `NetworkMystic.draw_veil`: border, title, mystic time, the visible entity
blocks, the status bar and the whisper panel, on an `h x w` grid. -/
def drawVeil (cfg : MysticConfig) (renv : RenderEnv) (h w : ℤ) (st : MysticState) :
    List Wr :=
  let title := "╡ Network Mystic ╞"
  let ws := drawVeilBorder h w []
  let ws := tryW h w 0 (max 0 ((w - (title.length : ℤ)) / 2)) title ws
  let mt := getMysticTime renv.hour renv.minute
  let timeX := w - (mt.length : ℤ) - 2
  let ws := if 0 < timeX then tryW h w 0 timeX mt ws else ws
  let ws := (visiblePairs h ((sortedSpirits st.entities).take cfg.max_spirits) 2).foldl
    (fun ws p => drawSpiritInfo cfg renv h w p.1 p.2 ws) ws
  let ws := drawStatusBar cfg renv h w st.entities ws
  drawWhispersPanel cfg h w st.whispers ws

/-! ### Bounds soundness of the renderer -/

/-- All emitted writes lie inside the grid. -/
def AllInB (h w : ℤ) (ws : List Wr) : Prop := ∀ wr ∈ ws, wrInB h w wr

/-- The bound invariant through the error-tracking drawing state. -/
def WAll (h w : ℤ) (st : WDraw) : Prop := AllInB h w (catchW st)

lemma allInB_nil (h w : ℤ) : AllInB h w [] := by
  intro wr hwr
  simp at hwr

lemma allInB_tryW {h w y x : ℤ} {s : String} {ws : List Wr} (hws : AllInB h w ws) :
    AllInB h w (tryW h w y x s ws) := by
  unfold tryW
  split
  · intro wr hwr
    rcases List.mem_append.mp hwr with h1 | h2
    · exact hws _ h1
    · rw [List.mem_singleton] at h2
      subst h2
      assumption
  · exact hws

lemma wAll_rawW {h w y x : ℤ} {s : String} {st : WDraw} (hst : WAll h w st) :
    WAll h w (rawW h w y x s st) := by
  cases st with
  | inl ws => exact hst
  | inr ws =>
    have hws : AllInB h w ws := hst
    show WAll h w (if wrInB h w ⟨y, x, s⟩ then Sum.inr (ws ++ [⟨y, x, s⟩]) else Sum.inl ws)
    split
    · intro wr hwr
      rcases List.mem_append.mp hwr with h1 | h2
      · exact hws _ h1
      · rw [List.mem_singleton] at h2
        subst h2
        assumption
    · exact hws

lemma wAll_mapW {h w : ℤ} {f : List Wr → List Wr} {st : WDraw}
    (hf : ∀ ws, AllInB h w ws → AllInB h w (f ws)) (hst : WAll h w st) :
    WAll h w (mapW f st) := by
  cases st with
  | inl ws => exact hst
  | inr ws => exact hf ws hst

lemma foldl_preserve {α β : Type} (P : β → Prop) (f : β → α → β)
    (hf : ∀ b a, P b → P (f b a)) : ∀ (l : List α) (b : β), P b → P (l.foldl f b) := by
  intro l
  induction l with
  | nil => intro b hb; exact hb
  | cons a rest ih =>
    intro b hb
    exact ih _ (hf b a hb)

lemma allInB_borderRow {h w y : ℤ} {ws : List Wr} (hws : AllInB h w ws) :
    AllInB h w (borderRow h w y ws) := by
  unfold borderRow
  split
  · exact allInB_tryW hws
  · split
    · exact allInB_tryW hws
    · exact allInB_tryW (allInB_tryW hws)

lemma allInB_drawVeilBorder {h w : ℤ} {ws : List Wr} (hws : AllInB h w ws) :
    AllInB h w (drawVeilBorder h w ws) :=
  foldl_preserve (AllInB h w) _ (fun _ _ hb => allInB_borderRow hb) _ _ hws

lemma allInB_renderGlyph {h w : ℤ} {g : Glyph} {ox oy : ℤ} {ws : List Wr}
    (hws : AllInB h w ws) : AllInB h w (renderGlyph h w g ox oy ws) := by
  unfold renderGlyph
  split
  · exact allInB_tryW hws
  · exact hws

lemma allInB_renderFlowViz {h w : ℤ} {rx tx : ℚ} {x y : ℤ} {ws : List Wr}
    (hws : AllInB h w ws) : AllInB h w (renderFlowViz h w rx tx x y ws) := by
  unfold renderFlowViz
  apply foldl_preserve (AllInB h w) _ (fun _ _ hb => allInB_tryW hb)
  exact foldl_preserve (AllInB h w) _ (fun _ _ hb => allInB_tryW hb) _ _ hws

lemma wAll_whisperLoop {h w : ℤ} {msgs : List String} {st : WDraw × ℤ}
    (hst : WAll h w st.1) : WAll h w (whisperLoop h w msgs st).1 := by
  unfold whisperLoop
  have := foldl_preserve (fun p : WDraw × ℤ => WAll h w p.1)
    (fun p m =>
      match p.1 with
      | .inl ws => (.inl ws, p.2)
      | .inr ws =>
        if p.2 < h - 2 then
          if wrInB h w ⟨p.2, 2, "│  " ++ m⟩ then
            (.inr (ws ++ [⟨p.2, 2, "│  " ++ m⟩]), p.2 + 1)
          else (.inr ws, p.2)
        else (.inr ws, p.2))
    ?_ msgs st hst
  · exact this
  · rintro ⟨p1, p2⟩ m hp
    cases p1 with
    | inl ws => exact hp
    | inr ws =>
      show WAll h w (if p2 < h - 2 then
          if wrInB h w ⟨p2, 2, "│  " ++ m⟩ then
            ((Sum.inr (ws ++ [⟨p2, 2, "│  " ++ m⟩]) : WDraw), p2 + 1)
          else ((Sum.inr ws : WDraw), p2)
        else ((Sum.inr ws : WDraw), p2)).1
      split
      · split
        · intro wr hwr
          rcases List.mem_append.mp hwr with h1 | h2
          · exact hp _ h1
          · rw [List.mem_singleton] at h2
            subst h2
            assumption
        · exact hp
      · exact hp

lemma allInB_drawSpiritInfo {cfg : MysticConfig} {renv : RenderEnv} {h w : ℤ}
    {e : NetworkEntity} {yStart : ℤ} {ws : List Wr} (hws : AllInB h w ws) :
    AllInB h w (drawSpiritInfo cfg renv h w e yStart ws) := by
  unfold drawSpiritInfo
  apply wAll_mapW
  · intro ws2 hws2
    exact foldl_preserve (AllInB h w) _ (fun _ _ hb => allInB_renderGlyph hb) _ _ hws2
  apply wAll_mapW
  · intro ws2 hws2
    exact allInB_tryW hws2
  apply wAll_whisperLoop
  apply wAll_mapW
  · intro ws2 hws2
    exact allInB_renderFlowViz hws2
  apply wAll_rawW
  apply wAll_rawW
  apply wAll_rawW
  apply wAll_rawW
  apply wAll_rawW
  apply wAll_rawW
  exact hws

lemma allInB_drawStatusBar {cfg : MysticConfig} {renv : RenderEnv} {h w : ℤ}
    {ents : List (String × NetworkEntity)} {ws : List Wr} (hws : AllInB h w ws) :
    AllInB h w (drawStatusBar cfg renv h w ents ws) := by
  unfold drawStatusBar
  exact allInB_tryW hws

lemma allInB_drawWhispersPanel {cfg : MysticConfig} {h w : ℤ} {whispers : List String}
    {ws : List Wr} (hws : AllInB h w ws) :
    AllInB h w (drawWhispersPanel cfg h w whispers ws) := by
  unfold drawWhispersPanel
  split
  · exact hws
  · apply allInB_tryW
    apply foldl_preserve (AllInB h w) _ (fun _ _ hb => allInB_tryW hb)
    apply foldl_preserve (AllInB h w) _ ?_
    · exact allInB_tryW hws
    · intro b a hb
      split
      · exact allInB_tryW hb
      · exact hb

/-- C4: the frame function is total for every grid size (the embedded catch
structure mirrors the per-write and per-component `except: pass` handlers, so
no error reaches the caller — including on grids smaller than the content,
such as 10 x 5), and every write it emits lies inside the grid: out-of-bounds
writes are dropped silently and the rest of the frame is still produced. -/
theorem render_overflow_safe (cfg : MysticConfig) (renv : RenderEnv) (h w : ℤ)
    (st : MysticState) : ∀ wr ∈ drawVeil cfg renv h w st, wrInB h w wr := by
  show AllInB h w (drawVeil cfg renv h w st)
  unfold drawVeil
  apply allInB_drawWhispersPanel
  apply allInB_drawStatusBar
  apply foldl_preserve (AllInB h w) _ (fun _ _ hb => allInB_drawSpiritInfo hb)
  split
  · apply allInB_tryW
    apply allInB_tryW
    exact allInB_drawVeilBorder (allInB_nil h w)
  · apply allInB_tryW
    exact allInB_drawVeilBorder (allInB_nil h w)

/-- Default configuration and a trivial render environment for the witness. -/
def cfg0 : MysticConfig := {}

/-- A render environment with no addresses and midnight clock. -/
def renv0 : RenderEnv := { ipsOf := fun _ => [], hour := 0, minute := 0 }

/-- Witness for `render_overflow_safe`: on a 10 x 5 grid the frame emits the
top border write, and it lies inside the grid. -/
theorem render_overflow_safe_w :
    wrInB 10 5 ⟨0, 0, "╔═══╗"⟩ :=
  render_overflow_safe cfg0 renv0 10 5 stEmpty ⟨0, 0, "╔═══╗"⟩ (by decide)

/-! ### The top-k visible-spirit selection -/

lemma visiblePairs_stuck (h : ℤ) :
    ∀ (l : List NetworkEntity) (y : ℤ), ¬ y < h - 10 → visiblePairs h l y = [] := by
  intro l
  induction l with
  | nil => intro y hy; rfl
  | cons e rest ih =>
    intro y hy
    simp only [visiblePairs, if_neg hy]
    exact ih y hy

lemma visiblePairs_take (h : ℤ) : ∀ (l : List NetworkEntity) (y : ℤ),
    ∃ n, (visiblePairs h l y).map Prod.fst = l.take n := by
  intro l
  induction l with
  | nil => intro y; exact ⟨0, by simp [visiblePairs]⟩
  | cons e rest ih =>
    intro y
    by_cases hy : y < h - 10
    · obtain ⟨n, hn⟩ := ih (y + 9)
      refine ⟨n + 1, ?_⟩
      simp [visiblePairs, hy, hn]
    · exact ⟨0, by simp [visiblePairs_stuck h (e :: rest) y hy]⟩

/-- C6: a frame draws at most `max_spirits` entity blocks; the drawn blocks
are a prefix (a `take`) of the spirits sorted by `rx_rate + tx_rate`
descending; the sorted list is genuinely sorted under that key and is a
permutation of the registry's entities — so the drawn blocks are the top
entities by combined rate. -/
theorem top_k_rendering (cfg : MysticConfig) (h : ℤ)
    (ents : List (String × NetworkEntity)) :
    (visibleSpirits cfg h ents).length ≤ cfg.max_spirits ∧
    (∃ n, visibleSpirits cfg h ents = (sortedSpirits ents).take n) ∧
    (sortedSpirits ents).Pairwise (fun a b => rateKey b ≤ rateKey a) ∧
    (sortedSpirits ents).Perm (ents.map Prod.snd) := by
  obtain ⟨n, hn⟩ := visiblePairs_take h ((sortedSpirits ents).take cfg.max_spirits) 2
  refine ⟨?_, ?_, ?_, ?_⟩
  · show (visibleSpirits cfg h ents).length ≤ _
    unfold visibleSpirits
    rw [hn, List.take_take, List.length_take]
    omega
  · refine ⟨min n cfg.max_spirits, ?_⟩
    show (visiblePairs h ((sortedSpirits ents).take cfg.max_spirits) 2).map Prod.fst = _
    rw [hn, List.take_take]
  · have hs := List.sorted_insertionSort spiritGE (ents.map Prod.snd)
    exact hs.imp (fun hab => hab)
  · exact List.perm_insertionSort _ _

/-! ### Persistence: `save_mysteries` and `json.dump(..., indent=2)` -/

/-- JSON values appearing in the session snapshot. -/
inductive JVal
  | jstr (s : String)
  | jint (n : ℤ)
  | jrat (q : ℚ)
  | jarr (xs : List JVal)
  | jobj (fields : List (String × JVal))

/-- JSON string escaping (`ensure_ascii=False`: non-ASCII passes through; the
escapes that can occur in this data are the common ones). -/
def jsonEscape (s : String) : String :=
  s.data.foldl (fun acc c =>
    acc ++ (if c = '"' then "\\\"" else if c = '\\' then "\\\\" else
            if c = '\n' then "\\n" else if c = '\t' then "\\t" else
            if c = '\r' then "\\r" else String.singleton c)) ""

/-- A serialized JSON string literal. -/
def jstring (s : String) : String := "\"" ++ jsonEscape s ++ "\""

/-- Serialization of a float value: CPython's repr digits are not reproduced;
a single-line token stands in, which is all the proved properties use. -/
def ratTok (q : ℚ) : String := toString q

/-- Indentation of `2 * lvl` spaces. -/
def spaces (n : ℕ) : String := String.join (List.replicate n " ")

/-- Python `sep.join(parts)`. -/
def joinSep (sep : String) : List String → String
  | [] => ""
  | [x] => x
  | x :: y :: xs => x ++ sep ++ joinSep sep (y :: xs)

mutual
/-- `json.dump(v, f, indent=2, ensure_ascii=False)` at nesting level `lvl`:
containers open with a newline, put each item on its own deeper-indented line
separated by `,\n`, and close on a fresh line at the container's own indent;
empty containers print inline. -/
def jdump : JVal → ℕ → String
  | .jstr s, _ => jstring s
  | .jint n, _ => toString n
  | .jrat q, _ => ratTok q
  | .jarr [], _ => "[]"
  | .jarr (x :: xs), lvl =>
    "[\n" ++ joinSep ",\n" (jdumpList (x :: xs) (lvl + 1)) ++
      "\n" ++ spaces (2 * lvl) ++ "]"
  | .jobj [], _ => "\x7b\x7d"
  | .jobj (f :: fs), lvl =>
    "\x7b\n" ++ joinSep ",\n" (jdumpFields (f :: fs) (lvl + 1)) ++
      "\n" ++ spaces (2 * lvl) ++ "\x7d"

/-- The item lines of an array. -/
def jdumpList : List JVal → ℕ → List String
  | [], _ => []
  | x :: xs, lvl => (spaces (2 * lvl) ++ jdump x lvl) :: jdumpList xs lvl

/-- The `"key": value` lines of an object. -/
def jdumpFields : List (String × JVal) → ℕ → List String
  | [], _ => []
  | (k, v) :: fs, lvl =>
    (spaces (2 * lvl) ++ jstring k ++ ": " ++ jdump v lvl) :: jdumpFields fs lvl
end

/-- External inputs of `save_mysteries`: the ISO timestamp and the wall clock
for the mystic time. -/
structure SaveEnv where
  isoNow : String
  hour : ℕ
  minute : ℕ

/-- The per-entity snapshot record built by `save_mysteries`. -/
def mysteryOf (env : SaveEnv) (e : NetworkEntity) : JVal :=
  .jobj [("spirit", .jstr e.name), ("interface", .jstr e.interface),
         ("essence", .jrat e.essence), ("aura", .jstr e.aura),
         ("total_rx", .jint e.rx_bytes), ("total_tx", .jint e.tx_bytes),
         ("whispers", .jarr ((takeLast e.whispers 5).map JVal.jstr)),
         ("timestamp", .jstr env.isoNow)]

/-- The session snapshot object (`log_entry`). -/
def logEntry (env : SaveEnv) (st : MysticState) : JVal :=
  .jobj [("timestamp", .jstr env.isoNow),
         ("mystic_time", .jstr (getMysticTime env.hour env.minute)),
         ("total_spirits", .jint (st.entities.length : ℤ)),
         ("mysteries", .jarr ((st.entities.map Prod.snd).map (mysteryOf env))),
         ("system_whispers", .jarr ((takeLast st.whispers 10).map JVal.jstr))]

/-- `NetworkMystic.save_mysteries`: `none` models "nothing appended to the log
file"; `some s` the exact string appended.  An unset path is the empty string
(Python falsiness of `self.config.log_file`). -/
def saveMysteries (cfg : MysticConfig) (env : SaveEnv) (st : MysticState) : Option String :=
  if cfg.log_file = "" then none
  else some (jdump (logEntry env st) 0 ++ "\n")

/-- Number of newline characters in a string. -/
def newlineCount (s : String) : ℕ := s.data.countP (fun c => c = '\n')

lemma newlineCount_append (a b : String) :
    newlineCount (a ++ b) = newlineCount a + newlineCount b := by
  unfold newlineCount
  rw [String.data_append]
  exact List.countP_append _ _ _

lemma newlineCount_joinSep (l : List String) :
    l.length - 1 ≤ newlineCount (joinSep ",\n" l) := by
  induction l with
  | nil => simp [joinSep]
  | cons x xs ih =>
    cases xs with
    | nil => simp [joinSep]
    | cons y ys =>
      have h1 : newlineCount (joinSep ",\n" (x :: y :: ys))
          = newlineCount x + newlineCount ",\n" + newlineCount (joinSep ",\n" (y :: ys)) := by
        show newlineCount (x ++ ",\n" ++ joinSep ",\n" (y :: ys)) = _
        rw [newlineCount_append, newlineCount_append]
      have h2 : newlineCount ",\n" = 1 := rfl
      simp only [List.length_cons] at ih ⊢
      omega

lemma jdumpFields_length (fs : List (String × JVal)) (lvl : ℕ) :
    (jdumpFields fs lvl).length = fs.length := by
  induction fs generalizing lvl with
  | nil => rfl
  | cons f rest ih =>
    obtain ⟨k, v⟩ := f
    simp [jdumpFields, ih]

/-- The serialized snapshot object always spans at least seven lines: the
opening brace line, its five field lines and the closing brace line. -/
lemma newlineCount_logEntry (env : SaveEnv) (st : MysticState) :
    6 ≤ newlineCount (jdump (logEntry env st) 0) := by
  show 6 ≤ newlineCount ("\x7b\n" ++ joinSep ",\n" (jdumpFields _ 1) ++
    "\n" ++ spaces 0 ++ "\x7d")
  simp only [newlineCount_append]
  have h1 : newlineCount "\x7b\n" = 1 := rfl
  have h2 : newlineCount "\n" = 1 := rfl
  have h3 := newlineCount_joinSep (jdumpFields
    [("timestamp", JVal.jstr env.isoNow),
     ("mystic_time", JVal.jstr (getMysticTime env.hour env.minute)),
     ("total_spirits", JVal.jint (st.entities.length : ℤ)),
     ("mysteries", JVal.jarr ((st.entities.map Prod.snd).map (mysteryOf env))),
     ("system_whispers", JVal.jarr ((takeLast st.whispers 10).map JVal.jstr))] 1)
  rw [jdumpFields_length] at h3
  simp only [List.length_cons, List.length_nil] at h3
  omega

/-- C8 (amended): with a configured path, shutdown persistence appends exactly
one pretty-printed JSON record terminated by a newline; the record spans
multiple lines (`indent=2`), so the file is not one JSON record per line; with
an empty path nothing is written. -/
theorem save_snapshot (cfg : MysticConfig) (env : SaveEnv) (st : MysticState) :
    (cfg.log_file = "" → saveMysteries cfg env st = none) ∧
    (cfg.log_file ≠ "" →
      saveMysteries cfg env st = some (jdump (logEntry env st) 0 ++ "\n") ∧
      ∀ s, saveMysteries cfg env st = some s → 7 ≤ newlineCount s) := by
  constructor
  · intro h
    unfold saveMysteries
    rw [if_pos h]
  · intro h
    have hout : saveMysteries cfg env st = some (jdump (logEntry env st) 0 ++ "\n") := by
      unfold saveMysteries
      rw [if_neg h]
    refine ⟨hout, ?_⟩
    intro s hs
    rw [hout] at hs
    obtain rfl := Option.some.injEq .. ▸ hs
    rw [newlineCount_append]
    have := newlineCount_logEntry env st
    have h2 : newlineCount "\n" = 1 := rfl
    omega

/-- Concrete save environment for the C8 witness and counterexample. -/
def envS0 : SaveEnv := { isoNow := "2026-01-01T12:00:00", hour := 12, minute := 0 }

/-- C8 counterexample: even with no entities the appended record contains
seven newline characters, so it is not one JSON record per line. -/
theorem save_snapshot_cx :
    saveMysteries cfg0 envS0 stEmpty = some (jdump (logEntry envS0 stEmpty) 0 ++ "\n") ∧
    1 < newlineCount (jdump (logEntry envS0 stEmpty) 0 ++ "\n") := by
  constructor
  · rfl
  · decide

/-- Witness for `save_snapshot`: the empty path writes nothing; the default
path appends the record with its trailing newline. -/
theorem save_snapshot_w :
    saveMysteries { cfg0 with log_file := "" } envS0 stEmpty = none ∧
    saveMysteries cfg0 envS0 stEmpty = some (jdump (logEntry envS0 stEmpty) 0 ++ "\n") :=
  ⟨(save_snapshot { cfg0 with log_file := "" } envS0 stEmpty).1 rfl,
   ((save_snapshot cfg0 envS0 stEmpty).2 (by decide)).1⟩

end Myst
